import Mathlib

/-! Indicator controller (`src/main.c`): shallow embedding and checked properties.

The C program drives four LEDs and one button on a Zephyr board.  The embedding
keeps the names of the source.  Platform calls (GPIO, sleeping, work queue,
thread creation) are recorded as `Effect`s; the values the platform returns
(`k_uptime_get`, `gpio_pin_get_dt`, `device_is_ready`) are inputs.
-/

namespace Tesi

/-! ## Machine integers -/

/-- Value of a mathematical integer after storage in an `int64_t`
(two's complement truncation). -/
def wrap64 (x : Int) : Int :=
  (x + 9223372036854775808) % 18446744073709551616 - 9223372036854775808

/-- Range of the values `k_uptime_get()` can return: milliseconds since boot,
a non-negative `int64_t`. -/
def Uptime (t : Int) : Prop := 0 ≤ t ∧ t < 9223372036854775808

instance (t : Int) : Decidable (Uptime t) := by
  unfold Uptime; exact inferInstance

/-- C logical negation `!x` on an integer. -/
def lnot (x : Int) : Int := if x = 0 then 1 else 0

/-! ## Data model -/

/-- The five GPIO lines of the source (`LED0`, `LED1`, `LEDR`, `LEDB`, `BTN`). -/
inductive Line
  | LED0 | LED1 | LEDR | LEDB | BTN
  deriving DecidableEq, Repr

/-- Address of one of the two mode flags (`&red_enabled`, `&blue_enabled`). -/
inductive Flag
  | red | blue
  deriving DecidableEq, Repr

/-- The mutable globals of the program: the two `atomic_t` flags and the
debounce timestamp `last_irq_ms`. -/
structure State where
  red_enabled : Int
  blue_enabled : Int
  last_irq_ms : Int
  deriving DecidableEq, Repr

/-- Globals after static initialisation: `ATOMIC_INIT(1)`, `ATOMIC_INIT(0)`,
and the zero-initialised `last_irq_ms`. -/
def init : State := { red_enabled := 1, blue_enabled := 0, last_irq_ms := 0 }

/-- Zephyr `atomic_get` on one of the two flags. -/
def atomic_get (f : Flag) (s : State) : Int :=
  match f with
  | Flag.red => s.red_enabled
  | Flag.blue => s.blue_enabled

/-- Zephyr `atomic_set` on one of the two flags. -/
def atomic_set (f : Flag) (v : Int) (s : State) : State :=
  match f with
  | Flag.red => { s with red_enabled := v }
  | Flag.blue => { s with blue_enabled := v }

/-- Pin configurations used by `main`. -/
inductive PinMode
  | output_inactive | input
  deriving DecidableEq, Repr

/-- The thread objects of the source. -/
inductive Thread
  | th_l0 | th_l1 | th_r | th_b | th_lento
  deriving DecidableEq, Repr

/-- Entry point and arguments handed to `k_thread_create`. -/
inductive Entry
  | blink (led : Line) (p_period_ms : Nat) (en : Option Flag)
  | test
  deriving DecidableEq, Repr

/-- Calls a context makes to the platform (GPIO, sleeping, work queue, atomics,
thread creation), recorded in program order. -/
inductive Effect
  | pin_set (l : Line) (v : Int)
  | pin_toggle (l : Line)
  | msleep (ms : Nat)
  | busy_wait (us : Nat)
  | work_submit
  | flag_set (f : Flag) (v : Int)
  | pin_configure (l : Line) (m : PinMode)
  | interrupt_configure (l : Line)
  | init_callback
  | add_callback (l : Line)
  | thread_create (t : Thread) (e : Entry) (prio : Int)
  deriving DecidableEq, Repr

/-! ## Button interrupt -/

/-- Debounce window of the source, in milliseconds. -/
def DEBOUNCE_MS : Int := 80

/-- Source `btn_read`: `gpio_pin_get_dt(&BTN) > 0`, with the driver's return
value `raw` as input. -/
def btn_read (raw : Int) : Int := if raw > 0 then 1 else 0

/-- The three ways `btn_isr` ends: the early return of the time check, the
early return of the level check, and the call of `k_work_submit`. -/
inductive Outcome
  | debounced | spurious | submitted
  deriving DecidableEq, Repr

/-- Source `btn_isr`, with `now = k_uptime_get()` and `raw` the value
`gpio_pin_get_dt(&BTN)` returns when the level is re-sampled. -/
def btn_isr (now raw : Int) (s : State) : State × Outcome :=
  if wrap64 (now - s.last_irq_ms) < DEBOUNCE_MS then
    (s, Outcome.debounced)
  else
    let s1 := { s with last_irq_ms := now }
    if btn_read raw = 0 then
      (s1, Outcome.spurious)
    else
      (s1, Outcome.submitted)

/-! ## Work handler -/

/-- Source `quick_double_flash_led1`. -/
def quick_double_flash_led1 : List Effect :=
  [ Effect.pin_set Line.LED1 1, Effect.msleep 60,
    Effect.pin_set Line.LED1 0, Effect.msleep 60,
    Effect.pin_set Line.LED1 1, Effect.msleep 60,
    Effect.pin_set Line.LED1 0 ]

/-- First statement of `on_button_press`: `int now_red = !atomic_get(&red_enabled)`. -/
def obp_now_red (s : State) : Int := lnot (atomic_get Flag.red s)

/-- Second statement of `on_button_press`: `atomic_set(&red_enabled, now_red)`. -/
def obp_set_red (now_red : Int) (s : State) : State := atomic_set Flag.red now_red s

/-- Third statement of `on_button_press`: `atomic_set(&blue_enabled, !now_red)`. -/
def obp_set_blue (now_red : Int) (s : State) : State :=
  atomic_set Flag.blue (lnot now_red) s

/-- Source `on_button_press`: the globals after the handler has run. -/
def on_button_press (s : State) : State :=
  let now_red := obp_now_red s
  obp_set_blue now_red (obp_set_red now_red s)

/-- Source `on_button_press`: the platform calls it makes, in order. -/
def on_button_press_effects (s : State) : List Effect :=
  let now_red := obp_now_red s
  [ Effect.flag_set Flag.red now_red, Effect.flag_set Flag.blue (lnot now_red) ]
    ++ quick_double_flash_led1

/-! ## A button edge followed by its handler -/

/-- One interrupt: the timestamp and the re-sampled level. -/
structure Edge where
  now : Int
  raw : Int
  deriving DecidableEq, Repr

/-- One edge delivered to `btn_isr`; when the ISR submits the work item, the
handler `on_button_press` runs once before the next edge. -/
def deliver (e : Edge) (s : State) : State × Outcome :=
  let r := btn_isr e.now e.raw s
  if r.2 = Outcome.submitted then (on_button_press r.1, r.2) else r

/-- Globals after a sequence of edges. -/
def run : List Edge → State → State
  | [], s => s
  | e :: es, s => run es (deliver e s).1

/-- How each ISR call of a sequence of edges ended. -/
def outcomes : List Edge → State → List Outcome
  | [], _ => []
  | e :: es, s => (deliver e s).2 :: outcomes es (deliver e s).1

/-- Timestamps of the edges that passed the time check (`last_irq_ms` was
set to them). -/
def acceptedTimes : List Edge → State → List Int
  | [], _ => []
  | e :: es, s =>
    if (deliver e s).2 = Outcome.debounced then acceptedTimes es (deliver e s).1
    else e.now :: acceptedTimes es (deliver e s).1

/-- Timestamps of the edges whose delivery changed a mode flag. -/
def flagChangeTimes : List Edge → State → List Int
  | [], _ => []
  | e :: es, s =>
    if (deliver e s).1.red_enabled = s.red_enabled ∧
        (deliver e s).1.blue_enabled = s.blue_enabled then
      flagChangeTimes es (deliver e s).1
    else e.now :: flagChangeTimes es (deliver e s).1

/-- Presses with an active level at the given timestamps. -/
def pressesAt (ts : List Int) : List Edge := ts.map (fun t => { now := t, raw := 1 })

/-- C truth of a flag value. -/
def isTrue (v : Int) : Prop := v ≠ 0

instance (v : Int) : Decidable (isTrue v) := by
  unfold isTrue; exact inferInstance

/-- Exactly one of the two mode flags is true. -/
def exactlyOne (s : State) : Prop :=
  (isTrue s.red_enabled ∧ ¬ isTrue s.blue_enabled) ∨
  (¬ isTrue s.red_enabled ∧ isTrue s.blue_enabled)

instance (s : State) : Decidable (exactlyOne s) := by
  unfold exactlyOne; exact inferInstance

/-- The two flags hold C booleans and `blue_enabled` is the negation of
`red_enabled`. -/
def complementary (s : State) : Prop :=
  (s.red_enabled = 0 ∨ s.red_enabled = 1) ∧ s.blue_enabled = lnot s.red_enabled

/-! ## Interleaving of the interrupt with the work-queue thread

`k_work_submit` and the system work queue are Zephyr's: a submitted item is
marked pending, a second submission while it is pending is coalesced, and the
single work-queue thread clears the mark when it starts the handler. -/

/-- Position of the work-queue thread inside `on_button_press`. -/
inductive WorkPc
  | idle
  | computed (now_red : Int)
  | wrote_red (now_red : Int)
  | flashing
  deriving DecidableEq, Repr

/-- Globals together with the state of the work item `btn_work`. -/
structure Sys where
  globals : State
  pending : Bool
  pc : WorkPc
  deriving DecidableEq, Repr

/-- A step of the program that can touch the globals: a whole run of the ISR
(it preempts every thread), or the next statement of the work-queue thread.
The blink threads and the load thread only read the flags. -/
inductive Action
  | irq (e : Edge)
  | work
  deriving DecidableEq, Repr

/-- One step: `irq` runs `btn_isr`; `work` starts `on_button_press` when the
item is pending (computing `now_red`), then executes the first `atomic_set`,
then the second, then `quick_double_flash_led1`. -/
def step (a : Action) (σ : Sys) : Sys :=
  match a with
  | Action.irq e =>
    let r := btn_isr e.now e.raw σ.globals
    { σ with globals := r.1, pending := σ.pending || decide (r.2 = Outcome.submitted) }
  | Action.work =>
    match σ.pc with
    | WorkPc.idle =>
      if σ.pending then
        { σ with pending := false, pc := WorkPc.computed (obp_now_red σ.globals) }
      else σ
    | WorkPc.computed now_red =>
      { σ with globals := obp_set_red now_red σ.globals, pc := WorkPc.wrote_red now_red }
    | WorkPc.wrote_red now_red =>
      { σ with globals := obp_set_blue now_red σ.globals, pc := WorkPc.flashing }
    | WorkPc.flashing => { σ with pc := WorkPc.idle }

/-- A sequence of steps. -/
def exec : List Action → Sys → Sys
  | [], σ => σ
  | a :: as, σ => exec as (step a σ)

/-- Start-up state: `red_enabled = 1`, `blue_enabled = 0`, nothing queued. -/
def start : Sys := { globals := init, pending := false, pc := WorkPc.idle }

/-! ## Observing a trace of platform calls -/

/-- Logical level of `led` after one platform call (`true` is active). -/
def apply_line (led : Line) (lvl : Bool) : Effect → Bool
  | Effect.pin_set l v => if l = led then decide (v ≠ 0) else lvl
  | Effect.pin_toggle l => if l = led then !lvl else lvl
  | _ => lvl

/-- Logical level of `led` after a trace. -/
def level_after (led : Line) (lvl : Bool) (es : List Effect) : Bool :=
  es.foldl (apply_line led) lvl

/-- Milliseconds slept by one platform call. -/
def sleep_ms : Effect → Nat
  | Effect.msleep d => d
  | _ => 0

/-- Durations, in slept milliseconds, of the intervals during which `led` is
active over a trace; `lit` is the current level and `acc` the time the current
active interval has lasted. -/
def pulses (led : Line) : List Effect → Bool → Nat → List Nat
  | [], lit, acc => if lit then [acc] else []
  | e :: es, lit, acc =>
    if lit then
      if apply_line led lit e then pulses led es true (acc + sleep_ms e)
      else acc :: pulses led es false 0
    else
      pulses led es (apply_line led lit e) 0

/-- Effect is a write (`gpio_pin_set_dt` or `gpio_pin_toggle_dt`) to line `l`. -/
def writesLine (l : Line) : Effect → Bool
  | Effect.pin_set l1 _ => decide (l1 = l)
  | Effect.pin_toggle l1 => decide (l1 = l)
  | _ => false

/-- Globals after the `atomic_set` calls of a trace. -/
def apply_flags (es : List Effect) (s : State) : State :=
  es.foldl (fun st e => match e with
    | Effect.flag_set f v => atomic_set f v st
    | _ => st) s

/-! ## Blink threads -/

/-- One iteration of the `while (1)` of `blink_thread`, with `period_ms` already
converted and `s` the globals at the moment the condition is evaluated. -/
def blink_iter (led : Line) (period_ms : Nat) (en : Option Flag) (s : State) :
    List Effect :=
  match en with
  | none =>
    [ Effect.pin_toggle led, Effect.msleep (period_ms / 2),
      Effect.pin_toggle led, Effect.msleep (period_ms / 2) ]
  | some f =>
    if atomic_get f s ≠ 0 then
      [ Effect.pin_toggle led, Effect.msleep (period_ms / 2),
        Effect.pin_toggle led, Effect.msleep (period_ms / 2) ]
    else
      [ Effect.pin_set led 0, Effect.msleep 50 ]

/-- Total time slept by a trace. -/
def duration (es : List Effect) : Nat := (es.map sleep_ms).sum

/-- Attach to each call of a trace the time at which it is made, when the
trace starts at `t`, `k_msleep d` lasts `d` ms and every other call is
instantaneous. -/
def stamp : Nat → List Effect → List (Nat × Effect)
  | _, [] => []
  | t, e :: es => (t, e) :: stamp (t + sleep_ms e) es

/-- Source `blink_thread`: the first `n` iterations of its loop, started at
time `t`, with `env u` the globals at time `u`.  `p_period_ms` is the pointer
argument, converted to `uint32_t` as in the source. -/
def blink_thread (led : Line) (p_period_ms : Nat) (en : Option Flag)
    (env : Nat → State) : Nat → Nat → List (Nat × Effect)
  | 0, _ => []
  | n + 1, t =>
    stamp t (blink_iter led (p_period_ms % 4294967296) en (env t)) ++
      blink_thread led p_period_ms en env n
        (t + duration (blink_iter led (p_period_ms % 4294967296) en (env t)))

/-- Logical level of `led` at time `T` over a timed trace, from level `lvl`. -/
def level_at (led : Line) (evs : List (Nat × Effect)) (lvl : Bool) (T : Nat) : Bool :=
  evs.foldl (fun l te => if te.1 ≤ T then apply_line led l te.2 else l) lvl

/-- One iteration of the `while (1)` of the load thread `test`. -/
def test_iter : List Effect := [ Effect.busy_wait 7000, Effect.msleep 1 ]

/-! ## Start-up -/

/-- Results of the five `device_is_ready` calls of `main`. -/
structure Ready where
  led0 : Bool
  led1 : Bool
  ledr : Bool
  ledb : Bool
  btn : Bool
  deriving DecidableEq, Repr

/-- How `main` ends: `return 0`, or the final `while (1) k_msleep(1000)`. -/
inductive Exit
  | returned (code : Int)
  | idle_loop
  deriving DecidableEq, Repr

/-- Source `main`: the platform calls made before it returns or enters its
idle loop. -/
def main (r : Ready) : List Effect × Exit :=
  if !r.led0 || !r.led1 || !r.ledr || !r.ledb || !r.btn then
    ([], Exit.returned 0)
  else
    ([ Effect.pin_configure Line.LED0 PinMode.output_inactive,
       Effect.pin_configure Line.LED1 PinMode.output_inactive,
       Effect.pin_configure Line.LEDR PinMode.output_inactive,
       Effect.pin_configure Line.LEDB PinMode.output_inactive,
       Effect.pin_configure Line.BTN PinMode.input,
       Effect.interrupt_configure Line.BTN,
       Effect.init_callback,
       Effect.add_callback Line.BTN,
       Effect.flag_set Flag.red 1,
       Effect.flag_set Flag.blue 0,
       Effect.thread_create Thread.th_l0 (Entry.blink Line.LED0 2000 none) 8,
       Effect.thread_create Thread.th_l1 (Entry.blink Line.LED1 4000 none) 8,
       Effect.thread_create Thread.th_r (Entry.blink Line.LEDR 1000 (some Flag.red)) 5,
       Effect.thread_create Thread.th_b (Entry.blink Line.LEDB 1000 (some Flag.blue)) 5,
       Effect.thread_create Thread.th_lento Entry.test 9 ],
     Exit.idle_loop)

/-- All five ports ready. -/
def allReady : Ready := { led0 := true, led1 := true, ledr := true, ledb := true, btn := true }

/-- Four LED ports ready, the button port not. -/
def buttonNotReady : Ready :=
  { led0 := true, led1 := true, ledr := true, ledb := true, btn := false }

/-- Effect is a `gpio_pin_configure_dt` call. -/
def isConfigure : Effect → Bool
  | Effect.pin_configure _ _ => true
  | _ => false

/-- Effect registers the interrupt or its callback. -/
def isInterruptSetup : Effect → Bool
  | Effect.interrupt_configure _ => true
  | Effect.init_callback => true
  | Effect.add_callback _ => true
  | _ => false

/-- Effect is an `atomic_set` on a mode flag. -/
def isFlagSet : Effect → Bool
  | Effect.flag_set _ _ => true
  | _ => false

/-- Effect is a `k_thread_create` call. -/
def isThreadCreate : Effect → Bool
  | Effect.thread_create _ _ _ => true
  | _ => false

/-! ## Execution contexts and the lines they write -/

/-- The execution contexts that run after start-up: the five threads created
by `main`, the work-queue thread running `on_button_press`, and the ISR. -/
inductive Context
  | thread (t : Thread)
  | work_queue
  | isr
  deriving DecidableEq, Repr

/-- Entry point `main` gives to a thread in its `k_thread_create` call. -/
def thread_entry (t : Thread) : Option Entry :=
  (main allReady).1.findSome? (fun e => match e with
    | Effect.thread_create t1 en _ => if t1 = t then some en else none
    | _ => none)

/-- Platform calls of one loop iteration of a thread entry point. -/
def entry_effects (s : State) : Entry → List Effect
  | Entry.blink led p en => blink_iter led (p % 4294967296) en s
  | Entry.test => test_iter

/-- Platform calls of `btn_isr`. -/
def btn_isr_effects (e : Edge) (s : State) : List Effect :=
  if (btn_isr e.now e.raw s).2 = Outcome.submitted then [Effect.work_submit] else []

/-- Platform calls a context makes in one activation (one loop iteration, one
handler run, one interrupt), for globals `s` and, for the ISR, edge `e`. -/
def Context.effects (c : Context) (s : State) (e : Edge) : List Effect :=
  match c with
  | Context.thread t =>
    match thread_entry t with
    | some en => entry_effects s en
    | none => []
  | Context.work_queue => on_button_press_effects s
  | Context.isr => btn_isr_effects e s

/-- Context `c` can write line `l`. -/
def Context.writes (c : Context) (l : Line) : Prop :=
  ∃ (s : State) (e : Edge), ∃ x ∈ c.effects s e, writesLine l x = true

/-- Globals over time in which `red_enabled` is 1 at time 0 and 0 from 1 ms on. -/
def redOffAfterZero (t : Nat) : State :=
  { red_enabled := if t = 0 then 1 else 0, blue_enabled := if t = 0 then 0 else 1,
    last_irq_ms := 0 }

/-- What holds of the flags at each position of the work-queue thread. -/
def WorkInv (σ : Sys) : Prop :=
  match σ.pc with
  | WorkPc.idle => complementary σ.globals
  | WorkPc.flashing => complementary σ.globals
  | WorkPc.computed now_red =>
    complementary σ.globals ∧ now_red = lnot σ.globals.red_enabled
  | WorkPc.wrote_red now_red =>
    (now_red = 0 ∨ now_red = 1) ∧ σ.globals.red_enabled = now_red ∧
      σ.globals.blue_enabled = now_red

/-! ## Theorems -/

theorem wrap64_sub {a b : Int} (ha : Uptime a) (hb : Uptime b) : wrap64 (a - b) = a - b := by
  unfold Uptime at ha hb
  unfold wrap64
  omega

theorem btn_isr_debounced {now raw : Int} {s : State} (hn : Uptime now)
    (hs : Uptime s.last_irq_ms) (h : now - s.last_irq_ms < 80) :
    btn_isr now raw s = (s, Outcome.debounced) := by
  unfold btn_isr
  rw [wrap64_sub hn hs]
  simp [DEBOUNCE_MS, h]

theorem btn_isr_passed {now raw : Int} {s : State} (hn : Uptime now)
    (hs : Uptime s.last_irq_ms) (h : 80 ≤ now - s.last_irq_ms) :
    btn_isr now raw s =
      ({ s with last_irq_ms := now },
        if btn_read raw = 0 then Outcome.spurious else Outcome.submitted) := by
  unfold btn_isr
  rw [wrap64_sub hn hs]
  have h' : ¬ (now - s.last_irq_ms < DEBOUNCE_MS) := by
    unfold DEBOUNCE_MS; omega
  simp only [h', if_false]
  split <;> rfl

theorem deliver_debounced {e : Edge} {s : State} (h : (deliver e s).2 = Outcome.debounced) :
    (deliver e s).1 = s := by
  unfold deliver btn_isr at *
  by_cases h1 : wrap64 (e.now - s.last_irq_ms) < DEBOUNCE_MS
  · simp [h1]
  · by_cases h2 : btn_read e.raw = 0 <;> simp [h1, h2] at h

theorem deliver_last (e : Edge) (s : State) :
    (deliver e s).1.last_irq_ms = s.last_irq_ms ∨ (deliver e s).1.last_irq_ms = e.now := by
  unfold deliver btn_isr
  by_cases h1 : wrap64 (e.now - s.last_irq_ms) < DEBOUNCE_MS
  · simp [h1]
  · by_cases h2 : btn_read e.raw = 0 <;>
      simp [h1, h2, on_button_press, obp_set_blue, obp_set_red, atomic_set]

theorem deliver_uptime {e : Edge} {s : State} (he : Uptime e.now)
    (hs : Uptime s.last_irq_ms) : Uptime (deliver e s).1.last_irq_ms := by
  rcases deliver_last e s with h | h <;> rw [h] <;> assumption

theorem run_uptime : ∀ (es : List Edge) (s : State), Uptime s.last_irq_ms →
    (∀ x ∈ es, Uptime x.now) → Uptime (run es s).last_irq_ms
  | [], _, hs, _ => hs
  | e :: es, s, hs, hes => by
    simp only [run]
    exact run_uptime es _ (deliver_uptime (hes e (List.mem_cons_self _ _)) hs)
      (fun x hx => hes x (List.mem_cons_of_mem _ hx))

theorem init_uptime : Uptime init.last_irq_ms := by decide

theorem deliver_not_debounced {e : Edge} {s : State} (he : Uptime e.now)
    (hs : Uptime s.last_irq_ms) (h : (deliver e s).2 ≠ Outcome.debounced) :
    80 ≤ e.now - s.last_irq_ms ∧ (deliver e s).1.last_irq_ms = e.now := by
  by_cases hlt : e.now - s.last_irq_ms < 80
  · exfalso
    apply h
    unfold deliver
    rw [btn_isr_debounced he hs hlt]
    simp
  · have hge : 80 ≤ e.now - s.last_irq_ms := by omega
    refine ⟨hge, ?_⟩
    unfold deliver
    rw [btn_isr_passed he hs hge]
    by_cases h2 : btn_read e.raw = 0 <;>
      simp [h2, on_button_press, obp_set_blue, obp_set_red, atomic_set]

theorem acceptedTimes_spaced : ∀ (es : List Edge) (s : State), Uptime s.last_irq_ms →
    (∀ x ∈ es, Uptime x.now) →
    (∀ t ∈ acceptedTimes es s, s.last_irq_ms + 80 ≤ t) ∧
      List.Pairwise (fun a b => a + 80 ≤ b) (acceptedTimes es s)
  | [], _, _, _ => by simp [acceptedTimes]
  | e :: es, s, hs, hes => by
    have he : Uptime e.now := hes e (List.mem_cons_self _ _)
    have hes' : ∀ x ∈ es, Uptime x.now := fun x hx => hes x (List.mem_cons_of_mem _ hx)
    have ih := acceptedTimes_spaced es (deliver e s).1 (deliver_uptime he hs) hes'
    by_cases hd : (deliver e s).2 = Outcome.debounced
    · simp only [acceptedTimes, hd, if_true]
      rw [deliver_debounced hd] at ih ⊢
      exact ih
    · simp only [acceptedTimes, hd, if_false]
      obtain ⟨hgap, hlast⟩ := deliver_not_debounced he hs hd
      rw [hlast] at ih
      refine ⟨?_, ?_⟩
      · intro t ht
        rcases List.mem_cons.mp ht with rfl | ht
        · omega
        · have := ih.1 t ht
          omega
      · exact List.Pairwise.cons ih.1 ih.2

theorem flagChangeTimes_sublist : ∀ (es : List Edge) (s : State),
    List.Sublist (flagChangeTimes es s) (acceptedTimes es s)
  | [], _ => by simp [flagChangeTimes, acceptedTimes]
  | e :: es, s => by
    have ih := flagChangeTimes_sublist es (deliver e s).1
    by_cases hd : (deliver e s).2 = Outcome.debounced
    · have hs := deliver_debounced hd
      simp only [flagChangeTimes, acceptedTimes, hd, if_true, hs, and_self]
      rw [hs] at ih
      exact ih
    · simp only [flagChangeTimes, acceptedTimes, hd, if_false]
      split
      · exact List.Sublist.cons _ ih
      · exact List.Sublist.cons₂ _ ih

theorem spaced_window_le_one {l : List Int} (hl : List.Pairwise (fun a b => a + 80 ≤ b) l)
    (w d : Int) (hd : d < 80) :
    (l.filter (fun t => decide (w ≤ t ∧ t ≤ w + d))).length ≤ 1 := by
  have hp := hl.sublist (List.filter_sublist (p := fun t => decide (w ≤ t ∧ t ≤ w + d)) l)
  generalize hf : l.filter (fun t => decide (w ≤ t ∧ t ≤ w + d)) = f at hp
  match f, hf, hp with
  | [], _, _ => simp
  | [_], _, _ => simp
  | a :: b :: r, hf, hp =>
    exfalso
    have ha : a ∈ l.filter (fun t => decide (w ≤ t ∧ t ≤ w + d)) := by rw [hf]; simp
    have hb : b ∈ l.filter (fun t => decide (w ≤ t ∧ t ≤ w + d)) := by rw [hf]; simp
    have ha' := (List.mem_filter.mp ha).2
    have hb' := (List.mem_filter.mp hb).2
    simp only [decide_eq_true_eq] at ha' hb'
    have hab : a + 80 ≤ b := (List.pairwise_cons.mp hp).1 b (by simp)
    omega

/-- C3: whatever edges came before (any timestamps `k_uptime_get` can return,
in any order), a call of `btn_isr` passes the time check only if
`now - last_irq_ms >= 80`; with `now - last_irq_ms < 80` the edge leaves
`last_irq_ms` and the flags as they were and submits no work.  Hence
`last_irq_ms` never decreases, any two edges that passed are at least 80 ms
apart, and in any window shorter than 80 ms at most one edge changes the flags
(the handler being run at each submission). -/
theorem debounce_window (es : List Edge) (e : Edge)
    (hes : ∀ x ∈ es, Uptime x.now) (he : Uptime e.now) :
    (((btn_isr e.now e.raw (run es init)).1.last_irq_ms ≠ (run es init).last_irq_ms ∨
        (btn_isr e.now e.raw (run es init)).2 ≠ Outcome.debounced) →
      80 ≤ e.now - (run es init).last_irq_ms) ∧
    (e.now - (run es init).last_irq_ms < 80 →
      btn_isr e.now e.raw (run es init) = (run es init, Outcome.debounced) ∧
      deliver e (run es init) = (run es init, Outcome.debounced)) ∧
    (run es init).last_irq_ms ≤ (deliver e (run es init)).1.last_irq_ms ∧
    List.Pairwise (fun a b => a + 80 ≤ b) (acceptedTimes es init) ∧
    (∀ w d : Int, d < 80 →
      ((flagChangeTimes es init).filter (fun t => decide (w ≤ t ∧ t ≤ w + d))).length ≤ 1) := by
  have hs : Uptime (run es init).last_irq_ms := run_uptime es init init_uptime hes
  have hsp := acceptedTimes_spaced es init init_uptime hes
  refine ⟨?_, ?_, ?_, hsp.2, ?_⟩
  · intro h
    by_contra hlt
    have hlt' : e.now - (run es init).last_irq_ms < 80 := by omega
    rw [btn_isr_debounced he hs hlt'] at h
    simp at h
  · intro hlt
    have h1 := @btn_isr_debounced e.now e.raw _ he hs hlt
    refine ⟨h1, ?_⟩
    unfold deliver
    rw [h1]
    simp
  · by_cases hd : (deliver e (run es init)).2 = Outcome.debounced
    · rw [deliver_debounced hd]
    · obtain ⟨hgap, hlast⟩ := deliver_not_debounced he hs hd
      rw [hlast]
      omega
  · intro w d hd
    exact spaced_window_le_one (hsp.2.sublist (flagChangeTimes_sublist es init)) w d hd

/-- C3 at a concrete run: a burst of five edges inside 80 ms, then an edge at 300 ms. -/
theorem debounce_window_witness :
    (∀ x ∈ pressesAt [100, 120, 140, 160, 179], Uptime x.now) ∧ Uptime 300 ∧
    80 ≤ (300 : Int) - (run (pressesAt [100, 120, 140, 160, 179]) init).last_irq_ms ∧
    List.Pairwise (fun a b => a + 80 ≤ b)
      (acceptedTimes (pressesAt [100, 120, 140, 160, 179]) init) :=
  ⟨by decide, by decide,
    (debounce_window (pressesAt [100, 120, 140, 160, 179]) ⟨300, 1⟩
      (by decide) (by decide)).1 (by decide),
    (debounce_window (pressesAt [100, 120, 140, 160, 179]) ⟨300, 1⟩
      (by decide) (by decide)).2.2.2.1⟩

theorem btn_read_pos {raw : Int} (h : 0 < raw) : btn_read raw ≠ 0 := by
  unfold btn_read
  simp [h]

theorem deliver_active {e : Edge} {s : State} (he : Uptime e.now)
    (hs : Uptime s.last_irq_ms) (h : 80 ≤ e.now - s.last_irq_ms) (hraw : 0 < e.raw) :
    deliver e s = (on_button_press { s with last_irq_ms := e.now }, Outcome.submitted) := by
  unfold deliver
  rw [btn_isr_passed he hs h]
  simp [btn_read_pos hraw]

theorem deliver_suppressed {e : Edge} {s : State} (he : Uptime e.now)
    (hs : Uptime s.last_irq_ms) (h : e.now - s.last_irq_ms < 80) :
    deliver e s = (s, Outcome.debounced) := by
  unfold deliver
  rw [btn_isr_debounced he hs h]
  simp

/-- C10: a call of `btn_isr` that passes the time check and then reads the
button inactive sets `last_irq_ms` to `now`, submits no work and leaves both
flags as they were; an edge less than 80 ms after it is then suppressed,
whatever its level. -/
theorem spurious_edge_consumes_window (s : State) (now raw : Int)
    (hs : Uptime s.last_irq_ms) (hn : Uptime now)
    (hgap : 80 ≤ now - s.last_irq_ms) (hraw : btn_read raw = 0) :
    btn_isr now raw s = ({ s with last_irq_ms := now }, Outcome.spurious) ∧
    deliver ⟨now, raw⟩ s = ({ s with last_irq_ms := now }, Outcome.spurious) ∧
    (deliver ⟨now, raw⟩ s).1.red_enabled = s.red_enabled ∧
    (deliver ⟨now, raw⟩ s).1.blue_enabled = s.blue_enabled ∧
    (∀ now2 raw2 : Int, Uptime now2 → now2 - now < 80 →
      btn_isr now2 raw2 (btn_isr now raw s).1 = ((btn_isr now raw s).1, Outcome.debounced) ∧
      deliver ⟨now2, raw2⟩ (deliver ⟨now, raw⟩ s).1 =
        ((deliver ⟨now, raw⟩ s).1, Outcome.debounced)) := by
  have h1 : btn_isr now raw s = ({ s with last_irq_ms := now }, Outcome.spurious) := by
    rw [btn_isr_passed hn hs hgap]
    simp [hraw]
  have h2 : deliver ⟨now, raw⟩ s = ({ s with last_irq_ms := now }, Outcome.spurious) := by
    unfold deliver
    simp only [h1]
    simp
  refine ⟨h1, h2, by rw [h2], by rw [h2], ?_⟩
  intro now2 raw2 hn2 hlt
  rw [h1, h2]
  have hs' : Uptime ({ s with last_irq_ms := now } : State).last_irq_ms := hn
  exact ⟨btn_isr_debounced hn2 hs' hlt,
    deliver_suppressed (e := ⟨now2, raw2⟩) hn2 hs' hlt⟩

/-- C10 at a concrete input: a noise edge at 100 ms, then a real press at 150 ms. -/
theorem spurious_edge_consumes_window_witness :
    btn_isr 100 0 init = ({ init with last_irq_ms := 100 }, Outcome.spurious) ∧
    btn_isr 150 1 (btn_isr 100 0 init).1 = ((btn_isr 100 0 init).1, Outcome.debounced) :=
  ⟨(spurious_edge_consumes_window init 100 0 (by decide) (by decide) (by decide)
      (by decide)).1,
    ((spurious_edge_consumes_window init 100 0 (by decide) (by decide) (by decide)
      (by decide)).2.2.2.2 150 1 (by decide) (by decide)).1⟩

theorem lnot_lnot {v : Int} (h : v = 0 ∨ v = 1) : lnot (lnot v) = v := by
  rcases h with rfl | rfl <;> decide

theorem lnot_bool (v : Int) : lnot v = 0 ∨ lnot v = 1 := by
  unfold lnot
  split <;> simp

theorem on_button_press_complementary (s : State) :
    complementary (on_button_press s) ∧
      (on_button_press s).red_enabled = lnot s.red_enabled ∧
      (on_button_press s).last_irq_ms = s.last_irq_ms := by
  unfold complementary on_button_press obp_set_blue obp_set_red obp_now_red atomic_set
    atomic_get
  exact ⟨⟨lnot_bool _, rfl⟩, rfl, rfl⟩

theorem spaced_presses_aux : ∀ (es : List Edge) (s : State), complementary s →
    Uptime s.last_irq_ms →
    List.Chain (fun a b : Int => a + 80 ≤ b) s.last_irq_ms (es.map Edge.now) →
    (∀ e ∈ es, Uptime e.now ∧ 0 < e.raw) →
    outcomes es s = List.replicate es.length Outcome.submitted ∧
    ∀ k, k ≤ es.length →
      (run (es.take k) s).red_enabled =
          (if k % 2 = 0 then s.red_enabled else lnot s.red_enabled) ∧
        (run (es.take k) s).blue_enabled = lnot (run (es.take k) s).red_enabled
  | [], s, hc, _, _, _ => by
    refine ⟨rfl, ?_⟩
    intro k hk
    have : k = 0 := by simpa using hk
    subst this
    simp [run, hc.2]
  | e :: es, s, hc, hs, hch, hes => by
    have he := hes e (List.mem_cons_self _ _)
    have hes' : ∀ x ∈ es, Uptime x.now ∧ 0 < x.raw :=
      fun x hx => hes x (List.mem_cons_of_mem _ hx)
    simp only [List.map_cons, List.chain_cons] at hch
    have hd := deliver_active he.1 hs (by omega) he.2
    obtain ⟨hc', hred, hlast⟩ := on_button_press_complementary { s with last_irq_ms := e.now }
    have ih := spaced_presses_aux es (on_button_press { s with last_irq_ms := e.now }) hc'
      (by rw [hlast]; exact he.1) (by rw [hlast]; exact hch.2) hes'
    refine ⟨?_, ?_⟩
    · simp only [outcomes, hd, List.length_cons, List.replicate_succ, ih.1]
    · intro k hk
      cases k with
      | zero => simp [run, hc.2]
      | succ k =>
        have hk' : k ≤ es.length := by simpa using hk
        simp only [List.take_succ_cons, run, hd]
        obtain ⟨h1, h2⟩ := ih.2 k hk'
        refine ⟨?_, h2⟩
        rw [h1, hred]
        simp only [lnot_lnot hc.1]
        rcases Nat.mod_two_eq_zero_or_one k with h | h
        · have : (k + 1) % 2 = 1 := by omega
          simp [h, this]
        · have : (k + 1) % 2 = 0 := by omega
          simp [h, this]

/-- C2 (amended): for every finite sequence of edges with an active level whose
first timestamp is at least 80 and whose consecutive timestamps are at least
80 apart, delivered from the initial state with the handler run once per
submission, every edge reaches `k_work_submit`, the number of accepted presses
is the number of edges, and after the k-th edge `red_enabled` is true exactly
when k is even, `blue_enabled` being its negation. -/
theorem spaced_presses_alternate (es : List Edge)
    (hch : List.Chain (fun a b : Int => a + 80 ≤ b) 0 (es.map Edge.now))
    (hes : ∀ e ∈ es, Uptime e.now ∧ 0 < e.raw) :
    outcomes es init = List.replicate es.length Outcome.submitted ∧
    (outcomes es init).count Outcome.submitted = es.length ∧
    ∀ k, k ≤ es.length →
      (isTrue (run (es.take k) init).red_enabled ↔ k % 2 = 0) ∧
      (isTrue (run (es.take k) init).blue_enabled ↔
        ¬ isTrue (run (es.take k) init).red_enabled) := by
  have hinit : complementary init := by
    unfold complementary
    decide
  obtain ⟨h1, h2⟩ := spaced_presses_aux es init hinit init_uptime hch hes
  refine ⟨h1, ?_, ?_⟩
  · rw [h1]
    simp
  · intro k hk
    obtain ⟨hr, hb⟩ := h2 k hk
    rw [hb, hr]
    unfold isTrue
    rcases Nat.mod_two_eq_zero_or_one k with h | h <;> simp [h, init, lnot]

/-- C2 (amended) at a concrete run: three presses at 80, 160 and 240 ms. -/
theorem spaced_presses_alternate_witness :
    List.Chain (fun a b : Int => a + 80 ≤ b) 0 ((pressesAt [80, 160, 240]).map Edge.now) ∧
    outcomes (pressesAt [80, 160, 240]) init = List.replicate 3 Outcome.submitted ∧
    (outcomes (pressesAt [80, 160, 240]) init).count Outcome.submitted = 3 :=
  ⟨by simp [pressesAt],
    (spaced_presses_alternate (pressesAt [80, 160, 240]) (by simp [pressesAt])
      (by decide)).1,
    (spaced_presses_alternate (pressesAt [80, 160, 240]) (by simp [pressesAt])
      (by decide)).2.1⟩

/-- C2 as stated fails: a single press 10 ms after boot satisfies the spacing
condition (it has no predecessor) and reads active, yet `btn_isr` suppresses it
because `10 - last_irq_ms = 10 < 80`; no press is accepted and Red stays on. -/
theorem spaced_presses_first_edge_counterexample :
    List.Chain' (fun a b : Int => a + 80 ≤ b) ((pressesAt [10]).map Edge.now) ∧
    (∀ e ∈ pressesAt [10], Uptime e.now ∧ 0 < e.raw) ∧
    outcomes (pressesAt [10]) init = [Outcome.debounced] ∧
    (outcomes (pressesAt [10]) init).count Outcome.submitted ≠ (pressesAt [10]).length ∧
    isTrue (run ((pressesAt [10]).take 1) init).red_enabled :=
  ⟨by simp [pressesAt], by decide, by decide, by decide, by decide⟩

/-- C4 (amended): from the initial state (Red), three presses with an active
level at `t`, `t + 79` and `t + 158` with `t ≥ 80`: the first is accepted, the
second is suppressed and leaves `last_irq_ms` at `t`, and the third, 158 ms after
the first, is accepted again, so the mode is back to Red.  After the first two
presses alone the mode is Blue. -/
theorem three_presses_79_apart (t : Int) (ht : 80 ≤ t) (hup : Uptime (t + 158)) :
    outcomes (pressesAt [t, t + 79, t + 158]) init =
      [Outcome.submitted, Outcome.debounced, Outcome.submitted] ∧
    (run (pressesAt [t, t + 79, t + 158]) init).red_enabled = 1 ∧
    (run (pressesAt [t, t + 79, t + 158]) init).blue_enabled = 0 ∧
    outcomes (pressesAt [t, t + 79]) init = [Outcome.submitted, Outcome.debounced] ∧
    (run (pressesAt [t, t + 79]) init).red_enabled = 0 ∧
    (run (pressesAt [t, t + 79]) init).blue_enabled = 1 := by
  have hup' := hup
  unfold Uptime at hup'
  have h0 : Uptime t := ⟨by omega, by omega⟩
  have h1 : Uptime (t + 79) := ⟨by omega, by omega⟩
  have d1 : deliver ⟨t, 1⟩ init =
      (on_button_press { init with last_irq_ms := t }, Outcome.submitted) :=
    deliver_active (e := ⟨t, 1⟩) h0 init_uptime (by simp [init]; omega) (by simp)
  have hs1 : (on_button_press { init with last_irq_ms := t }) =
      { red_enabled := 0, blue_enabled := 1, last_irq_ms := t } := by
    simp [on_button_press, obp_set_blue, obp_set_red, obp_now_red, atomic_set, atomic_get,
      init, lnot]
  rw [hs1] at d1
  have d2 : deliver ⟨t + 79, 1⟩ { red_enabled := 0, blue_enabled := 1, last_irq_ms := t } =
      ({ red_enabled := 0, blue_enabled := 1, last_irq_ms := t }, Outcome.debounced) :=
    deliver_suppressed (e := ⟨t + 79, 1⟩) h1 h0 (by simp)
  have d3 : deliver ⟨t + 158, 1⟩ { red_enabled := 0, blue_enabled := 1, last_irq_ms := t } =
      (on_button_press { red_enabled := 0, blue_enabled := 1, last_irq_ms := t + 158 },
        Outcome.submitted) :=
    deliver_active (e := ⟨t + 158, 1⟩) hup h0 (by simp) (by simp)
  have hs3 : (on_button_press { red_enabled := 0, blue_enabled := 1, last_irq_ms := t + 158 }) =
      { red_enabled := 1, blue_enabled := 0, last_irq_ms := t + 158 } := by
    simp [on_button_press, obp_set_blue, obp_set_red, obp_now_red, atomic_set, atomic_get,
      lnot]
  rw [hs3] at d3
  simp [pressesAt, outcomes, run, d1, d2, d3]

/-- C4 (amended) at a concrete run: presses at 100, 179 and 258 ms. -/
theorem three_presses_79_apart_witness :
    (80 : Int) ≤ 100 ∧ Uptime (100 + 158) ∧
    outcomes (pressesAt [100, 100 + 79, 100 + 158]) init =
      [Outcome.submitted, Outcome.debounced, Outcome.submitted] ∧
    (run (pressesAt [100, 100 + 79, 100 + 158]) init).red_enabled = 1 :=
  ⟨by decide, by decide,
    (three_presses_79_apart 100 (by decide) (by decide)).1,
    (three_presses_79_apart 100 (by decide) (by decide)).2.1⟩

/-- C4 as stated fails: with presses at 100, 179 and 258 ms the third press is
accepted as well (258 - 100 = 158 ≥ 80), so it is not true that only the first
is handled, and the final mode is Red, not Blue. -/
theorem three_presses_79_apart_counterexample :
    outcomes (pressesAt [100, 179, 258]) init ≠
      [Outcome.submitted, Outcome.debounced, Outcome.debounced] ∧
    ¬ ((run (pressesAt [100, 179, 258]) init).red_enabled = 0 ∧
        (run (pressesAt [100, 179, 258]) init).blue_enabled = 1) ∧
    outcomes (pressesAt [100, 179, 258]) init =
      [Outcome.submitted, Outcome.debounced, Outcome.submitted] ∧
    run (pressesAt [100, 179, 258]) init =
      { red_enabled := 1, blue_enabled := 0, last_irq_ms := 258 } := by
  decide


theorem btn_isr_flags (now raw : Int) (s : State) :
    (btn_isr now raw s).1.red_enabled = s.red_enabled ∧
      (btn_isr now raw s).1.blue_enabled = s.blue_enabled := by
  unfold btn_isr
  by_cases h1 : wrap64 (now - s.last_irq_ms) < DEBOUNCE_MS
  · simp [h1]
  · by_cases h2 : btn_read raw = 0 <;> simp [h1, h2]

theorem step_inv (a : Action) (σ : Sys) (h : WorkInv σ) : WorkInv (step a σ) := by
  cases a with
  | irq e =>
    obtain ⟨hr, hb⟩ := btn_isr_flags e.now e.raw σ.globals
    unfold WorkInv complementary at *
    simp only [step]
    rw [hr, hb]
    exact h
  | work =>
    obtain ⟨g, pend, pc⟩ := σ
    cases pc with
    | idle =>
      cases pend with
      | false => simpa [step] using h
      | true =>
        simp only [WorkInv] at h
        simp only [step, if_true, WorkInv, obp_now_red, atomic_get]
        exact ⟨h, trivial⟩
    | computed nr =>
      simp only [WorkInv, complementary] at h
      simp only [step, WorkInv, obp_set_red, atomic_set]
      obtain ⟨⟨hr, hb⟩, hn⟩ := h
      refine ⟨?_, trivial, ?_⟩
      · rw [hn]
        exact lnot_bool _
      · rw [hb, hn]
    | wrote_red nr =>
      simp only [WorkInv] at h
      simp only [step, WorkInv, complementary, obp_set_blue, atomic_set]
      obtain ⟨hn, hr, _⟩ := h
      rw [hr]
      exact ⟨hn, rfl⟩
    | flashing =>
      simpa [step, WorkInv] using h

theorem exec_inv : ∀ (acts : List Action) (σ : Sys), WorkInv σ → WorkInv (exec acts σ)
  | [], _, h => h
  | a :: as, σ, h => exec_inv as (step a σ) (step_inv a σ h)

theorem start_inv : WorkInv start := by
  unfold WorkInv start complementary init
  decide

theorem complementary_exactlyOne {s : State} (h : complementary s) : exactlyOne s := by
  unfold complementary at h
  unfold exactlyOne isTrue
  obtain ⟨hr, hb⟩ := h
  rcases hr with hr | hr <;> rw [hb, hr] <;> decide

/-- The three statements of the handler, executed in turn by the work-queue
thread, give the globals of `on_button_press`. -/
theorem exec_handler (g : State) :
    (exec [Action.work, Action.work, Action.work]
      { globals := g, pending := true, pc := WorkPc.idle }).globals = on_button_press g := by
  rfl

/-- C1 (amended): in every state reachable from the start-up state by runs of
the ISR and statements of the work-queue thread, exactly one of `red_enabled`
and `blue_enabled` is true, except in the state between the two `atomic_set`
writes of `on_button_press`, where the two flags are equal (both false when
leaving Red, both true when leaving Blue). -/
theorem mode_flags_exclusive (acts : List Action) :
    ((∀ now_red, (exec acts start).pc ≠ WorkPc.wrote_red now_red) →
      exactlyOne (exec acts start).globals) ∧
    (∀ now_red, (exec acts start).pc = WorkPc.wrote_red now_red →
      (exec acts start).globals.red_enabled = now_red ∧
      (exec acts start).globals.blue_enabled = now_red ∧
      ¬ exactlyOne (exec acts start).globals) := by
  have h := exec_inv acts start start_inv
  generalize exec acts start = σ at h
  obtain ⟨g, pend, pc⟩ := σ
  constructor
  · intro hpc
    cases pc with
    | idle => exact complementary_exactlyOne h
    | flashing => exact complementary_exactlyOne h
    | computed nr => exact complementary_exactlyOne h.1
    | wrote_red nr => exact absurd rfl (hpc nr)
  · intro nr hpc
    simp only at hpc
    subst hpc
    simp only [WorkInv] at h
    obtain ⟨hn, hr, hb⟩ := h
    refine ⟨hr, hb, ?_⟩
    unfold exactlyOne isTrue
    simp only [hr, hb]
    tauto

/-- C1 (amended) at concrete runs: after a whole handler run the mode is Blue
alone; between its two writes both flags are 0. -/
theorem mode_flags_exclusive_witness :
    exactlyOne (exec [Action.irq ⟨80, 1⟩, Action.work, Action.work, Action.work] start).globals ∧
    (exec [Action.irq ⟨80, 1⟩, Action.work, Action.work] start).globals.red_enabled = 0 ∧
    (exec [Action.irq ⟨80, 1⟩, Action.work, Action.work] start).globals.blue_enabled = 0 :=
  ⟨(mode_flags_exclusive
      [Action.irq ⟨80, 1⟩, Action.work, Action.work, Action.work]).1
      (fun now_red h => by
        have h2 : (exec [Action.irq ⟨80, 1⟩, Action.work, Action.work, Action.work]
            start).pc = WorkPc.flashing := by decide
        rw [h2] at h
        cases h),
    ((mode_flags_exclusive [Action.irq ⟨80, 1⟩, Action.work, Action.work]).2 0
      (by decide)).1,
    ((mode_flags_exclusive [Action.irq ⟨80, 1⟩, Action.work, Action.work]).2 0
      (by decide)).2.1⟩

/-- C1 as stated fails: after a press at 80 ms, the work-queue thread has
executed `atomic_set(&red_enabled, 0)` and not yet `atomic_set(&blue_enabled, 1)`;
in that state neither flag is true. -/
theorem mode_flags_exclusive_counterexample :
    (exec [Action.irq ⟨80, 1⟩, Action.work, Action.work] start).pc = WorkPc.wrote_red 0 ∧
    ¬ isTrue (exec [Action.irq ⟨80, 1⟩, Action.work, Action.work] start).globals.red_enabled ∧
    ¬ isTrue (exec [Action.irq ⟨80, 1⟩, Action.work, Action.work] start).globals.blue_enabled ∧
    ¬ exactlyOne (exec [Action.irq ⟨80, 1⟩, Action.work, Action.work] start).globals := by
  decide

/-- C5 (amended): every run of `on_button_press` first writes the two flags and
then drives LED1: LED1 is set active twice, each time held for 60 ms, with
60 ms inactive in between, 180 ms of sleeping in all, and LED1 is inactive
when the handler returns, whatever its level was before. -/
theorem handler_acknowledgement (s : State) (lit : Bool) :
    (on_button_press_effects s).take 2 =
      [ Effect.flag_set Flag.red (lnot s.red_enabled),
        Effect.flag_set Flag.blue (lnot (lnot s.red_enabled)) ] ∧
    apply_flags ((on_button_press_effects s).take 2) s = on_button_press s ∧
    (on_button_press_effects s).drop 2 =
      [ Effect.pin_set Line.LED1 1, Effect.msleep 60,
        Effect.pin_set Line.LED1 0, Effect.msleep 60,
        Effect.pin_set Line.LED1 1, Effect.msleep 60,
        Effect.pin_set Line.LED1 0 ] ∧
    pulses Line.LED1 (on_button_press_effects s) lit 0 = [60, 60] ∧
    (on_button_press_effects s).count (Effect.pin_set Line.LED1 1) = 2 ∧
    duration (on_button_press_effects s) = 180 ∧
    level_after Line.LED1 lit (on_button_press_effects s) = false := by
  refine ⟨rfl, rfl, rfl, ?_, ?_, ?_, ?_⟩
  · cases lit <;>
      simp [on_button_press_effects, quick_double_flash_led1, pulses, apply_line, sleep_ms]
  · simp [on_button_press_effects, quick_double_flash_led1, List.count_cons]
  · simp [on_button_press_effects, quick_double_flash_led1, duration, sleep_ms]
  · simp [on_button_press_effects, quick_double_flash_led1, level_after, apply_line]

/-- C5 as stated fails: the handler run from the initial state sets LED1 active
two times, not three, and LED1 is held active for two intervals of 60 ms. -/
theorem handler_acknowledgement_counterexample :
    (on_button_press_effects init).count (Effect.pin_set Line.LED1 1) ≠ 3 ∧
    pulses Line.LED1 (on_button_press_effects init) false 0 ≠ [60, 60, 60] ∧
    (on_button_press_effects init).count (Effect.pin_set Line.LED1 1) = 2 ∧
    pulses Line.LED1 (on_button_press_effects init) false 0 = [60, 60] := by
  decide

/-- C8: if any of the five ports is not ready, `main` returns 0 at once having
made no platform call (no pin configured, no callback registered, no flag
written, no thread created); if all five are ready it configures the four
LEDs as inactive outputs and the button as input, registers the interrupt,
sets `red_enabled = 1` and `blue_enabled = 0`, creates exactly five threads
and enters its idle loop. -/
theorem main_readiness (r : Ready) :
    ((r.led0 = false ∨ r.led1 = false ∨ r.ledr = false ∨ r.ledb = false ∨
        r.btn = false) →
      main r = ([], Exit.returned 0)) ∧
    ((r.led0 = true ∧ r.led1 = true ∧ r.ledr = true ∧ r.ledb = true ∧ r.btn = true) →
      (main r).2 = Exit.idle_loop ∧
      (main r).1.filter isConfigure =
        [ Effect.pin_configure Line.LED0 PinMode.output_inactive,
          Effect.pin_configure Line.LED1 PinMode.output_inactive,
          Effect.pin_configure Line.LEDR PinMode.output_inactive,
          Effect.pin_configure Line.LEDB PinMode.output_inactive,
          Effect.pin_configure Line.BTN PinMode.input ] ∧
      (main r).1.filter isInterruptSetup =
        [ Effect.interrupt_configure Line.BTN, Effect.init_callback,
          Effect.add_callback Line.BTN ] ∧
      (main r).1.filter isFlagSet =
        [ Effect.flag_set Flag.red 1, Effect.flag_set Flag.blue 0 ] ∧
      (∀ s : State, (apply_flags (main r).1 s).red_enabled = 1 ∧
        (apply_flags (main r).1 s).blue_enabled = 0) ∧
      ((main r).1.filter isThreadCreate).length = 5 ∧
      (main r).1.filter isThreadCreate =
        [ Effect.thread_create Thread.th_l0 (Entry.blink Line.LED0 2000 none) 8,
          Effect.thread_create Thread.th_l1 (Entry.blink Line.LED1 4000 none) 8,
          Effect.thread_create Thread.th_r (Entry.blink Line.LEDR 1000 (some Flag.red)) 5,
          Effect.thread_create Thread.th_b (Entry.blink Line.LEDB 1000 (some Flag.blue)) 5,
          Effect.thread_create Thread.th_lento Entry.test 9 ]) := by
  obtain ⟨a, b, c, d, e⟩ := r
  constructor
  · intro h
    cases a <;> cases b <;> cases c <;> cases d <;> cases e <;> simp at h <;> rfl
  · rintro ⟨ha, hb, hc, hd, he⟩
    simp only at ha hb hc hd he
    subst ha hb hc hd he
    refine ⟨rfl, by decide, by decide, by decide, ?_, by decide, by decide⟩
    intro s
    exact ⟨rfl, rfl⟩

/-- C8 at concrete inputs: the button port not ready, and all ports ready. -/
theorem main_readiness_witness :
    main buttonNotReady = ([], Exit.returned 0) ∧
    (main allReady).2 = Exit.idle_loop ∧
    ((main allReady).1.filter isThreadCreate).length = 5 :=
  ⟨(main_readiness buttonNotReady).1 (by decide),
    ((main_readiness allReady).2 (by decide)).1,
    ((main_readiness allReady).2 (by decide)).2.2.2.2.2.1⟩

theorem thread_entry_l0 :
    thread_entry Thread.th_l0 = some (Entry.blink Line.LED0 2000 none) := by decide

theorem thread_entry_l1 :
    thread_entry Thread.th_l1 = some (Entry.blink Line.LED1 4000 none) := by decide

theorem thread_entry_r :
    thread_entry Thread.th_r = some (Entry.blink Line.LEDR 1000 (some Flag.red)) := by decide

theorem thread_entry_b :
    thread_entry Thread.th_b = some (Entry.blink Line.LEDB 1000 (some Flag.blue)) := by decide

theorem thread_entry_lento : thread_entry Thread.th_lento = some Entry.test := by decide

/-- Every write of a blink iteration goes to the thread's own LED. -/
theorem blink_iter_writes {led l : Line} {p : Nat} {en : Option Flag} {s : State}
    {x : Effect} (hx : x ∈ blink_iter led p en s) (hw : writesLine l x = true) : led = l := by
  unfold blink_iter at hx
  cases en with
  | none =>
    simp only [List.mem_cons, List.mem_singleton, List.not_mem_nil, or_false] at hx
    rcases hx with rfl | rfl | rfl | rfl
    · simpa [writesLine] using hw
    · simp [writesLine] at hw
    · simpa [writesLine] using hw
    · simp [writesLine] at hw
  | some f =>
    simp only at hx
    split at hx
    · simp only [List.mem_cons, List.mem_singleton, List.not_mem_nil, or_false] at hx
      rcases hx with rfl | rfl | rfl | rfl
      · simpa [writesLine] using hw
      · simp [writesLine] at hw
      · simpa [writesLine] using hw
      · simp [writesLine] at hw
    · simp only [List.mem_cons, List.mem_singleton, List.not_mem_nil, or_false] at hx
      rcases hx with rfl | rfl
      · simpa [writesLine] using hw
      · simp [writesLine] at hw

/-- Every blink iteration writes the thread's own LED. -/
theorem blink_iter_writes_own (led : Line) (p : Nat) (en : Option Flag) (s : State) :
    ∃ x ∈ blink_iter led p en s, writesLine led x = true := by
  unfold blink_iter
  cases en with
  | none => exact ⟨Effect.pin_toggle led, by simp, by simp [writesLine]⟩
  | some f =>
    simp only
    split
    · exact ⟨Effect.pin_toggle led, by simp, by simp [writesLine]⟩
    · exact ⟨Effect.pin_set led 0, by simp, by simp [writesLine]⟩

/-- The lines each context writes. -/
theorem writes_iff (c : Context) (l : Line) :
    c.writes l ↔
      (c = Context.thread Thread.th_l0 ∧ l = Line.LED0) ∨
      (c = Context.thread Thread.th_l1 ∧ l = Line.LED1) ∨
      (c = Context.thread Thread.th_r ∧ l = Line.LEDR) ∨
      (c = Context.thread Thread.th_b ∧ l = Line.LEDB) ∨
      (c = Context.work_queue ∧ l = Line.LED1) := by
  constructor
  · rintro ⟨s, e, x, hx, hw⟩
    cases c with
    | thread t =>
      cases t with
      | th_l0 =>
        simp only [Context.effects, thread_entry_l0, entry_effects] at hx
        have := blink_iter_writes hx hw
        simp [← this]
      | th_l1 =>
        simp only [Context.effects, thread_entry_l1, entry_effects] at hx
        have := blink_iter_writes hx hw
        simp [← this]
      | th_r =>
        simp only [Context.effects, thread_entry_r, entry_effects] at hx
        have := blink_iter_writes hx hw
        simp [← this]
      | th_b =>
        simp only [Context.effects, thread_entry_b, entry_effects] at hx
        have := blink_iter_writes hx hw
        simp [← this]
      | th_lento =>
        simp only [Context.effects, thread_entry_lento, entry_effects, test_iter,
          List.mem_cons, List.mem_singleton, List.not_mem_nil, or_false] at hx
        rcases hx with rfl | rfl <;> simp [writesLine] at hw
    | work_queue =>
      simp only [Context.effects, on_button_press_effects, quick_double_flash_led1,
        List.cons_append, List.nil_append, List.mem_cons, List.mem_singleton,
        List.not_mem_nil, or_false] at hx
      rcases hx with rfl | rfl | rfl | rfl | rfl | rfl | rfl | rfl | rfl <;>
        simp [writesLine] at hw <;> simp [← hw]
    | isr =>
      simp only [Context.effects, btn_isr_effects] at hx
      split at hx
      · simp only [List.mem_singleton] at hx
        subst hx
        simp [writesLine] at hw
      · simp at hx
  · rintro (⟨rfl, rfl⟩ | ⟨rfl, rfl⟩ | ⟨rfl, rfl⟩ | ⟨rfl, rfl⟩ | ⟨rfl, rfl⟩)
    · refine ⟨init, ⟨0, 0⟩, ?_⟩
      simp only [Context.effects, thread_entry_l0, entry_effects]
      exact blink_iter_writes_own _ _ _ _
    · refine ⟨init, ⟨0, 0⟩, ?_⟩
      simp only [Context.effects, thread_entry_l1, entry_effects]
      exact blink_iter_writes_own _ _ _ _
    · refine ⟨init, ⟨0, 0⟩, ?_⟩
      simp only [Context.effects, thread_entry_r, entry_effects]
      exact blink_iter_writes_own _ _ _ _
    · refine ⟨init, ⟨0, 0⟩, ?_⟩
      simp only [Context.effects, thread_entry_b, entry_effects]
      exact blink_iter_writes_own _ _ _ _
    · exact ⟨init, ⟨0, 0⟩, Effect.pin_set Line.LED1 1, by decide, by decide⟩

/-- C7 (amended): among the contexts that run after start-up, LED0, LEDR and
LEDB are each written by exactly one context, their own blink thread; LED1 is
written by exactly two, its blink thread `th_l1` and the work-queue handler
(`quick_double_flash_led1`); the load thread and the ISR write no line, and no
context writes BTN. -/
theorem output_line_writers (c : Context) :
    (c.writes Line.LED0 ↔ c = Context.thread Thread.th_l0) ∧
    (c.writes Line.LEDR ↔ c = Context.thread Thread.th_r) ∧
    (c.writes Line.LEDB ↔ c = Context.thread Thread.th_b) ∧
    (c.writes Line.LED1 ↔ c = Context.thread Thread.th_l1 ∨ c = Context.work_queue) ∧
    ¬ c.writes Line.BTN ∧
    (∀ l, ¬ (Context.thread Thread.th_lento).writes l) ∧
    (∀ l, ¬ Context.isr.writes l) := by
  refine ⟨?_, ?_, ?_, ?_, ?_, ?_, ?_⟩
  · rw [writes_iff]; simp
  · rw [writes_iff]; simp
  · rw [writes_iff]; simp
  · rw [writes_iff]; simp
  · rw [writes_iff]; simp
  · intro l; rw [writes_iff]; simp
  · intro l; rw [writes_iff]; simp

/-- C7 as stated fails: LED1 is written by two different contexts, the blink
thread `th_l1` (toggle) and the work-queue handler (set). -/
theorem output_line_writers_counterexample :
    (Context.thread Thread.th_l1).writes Line.LED1 ∧
    Context.work_queue.writes Line.LED1 ∧
    Context.thread Thread.th_l1 ≠ Context.work_queue ∧
    ¬ (∃ c : Context, c.writes Line.LED1 ∧ ∀ c2 : Context, c2.writes Line.LED1 → c2 = c) := by
  have h1 : (Context.thread Thread.th_l1).writes Line.LED1 :=
    ⟨init, ⟨0, 0⟩, Effect.pin_toggle Line.LED1, by decide, by decide⟩
  have h2 : Context.work_queue.writes Line.LED1 :=
    ⟨init, ⟨0, 0⟩, Effect.pin_set Line.LED1 1, by decide, by decide⟩
  refine ⟨h1, h2, by decide, ?_⟩
  rintro ⟨c, _, hu⟩
  have e1 := hu _ h1
  have e2 := hu _ h2
  rw [← e2] at e1
  cases e1

theorem level_at_append (led : Line) (a b : List (Nat × Effect)) (lvl : Bool) (T : Nat) :
    level_at led (a ++ b) lvl T = level_at led b (level_at led a lvl T) T := by
  unfold level_at
  rw [List.foldl_append]

theorem stamp_snd : ∀ (es : List Effect) (t : Nat), (stamp t es).map Prod.snd = es
  | [], _ => rfl
  | e :: es, t => by simp [stamp, stamp_snd es]

theorem stamp_skip (led : Line) (T : Nat) : ∀ (es : List Effect) (t : Nat) (lvl : Bool),
    T < t → level_at led (stamp t es) lvl T = lvl
  | [], _, _, _ => rfl
  | e :: es, t, lvl, h => by
    have ih := stamp_skip led T es (t + sleep_ms e) lvl (by omega)
    have hn : ¬ t ≤ T := by omega
    unfold level_at at ih ⊢
    simp only [stamp, List.foldl_cons, hn, if_false]
    exact ih

theorem blink_thread_skip (led : Line) (p : Nat) (en : Option Flag) (env : Nat → State)
    (T : Nat) : ∀ (n t : Nat) (lvl : Bool), T < t →
    level_at led (blink_thread led p en env n t) lvl T = lvl
  | 0, _, _, _ => rfl
  | n + 1, t, lvl, h => by
    simp only [blink_thread, level_at_append]
    rw [stamp_skip led T _ t lvl h]
    exact blink_thread_skip led p en env T n _ lvl (by omega)

theorem unconditional_trace (led : Line) (p : Nat) (env : Nat → State) :
    ∀ (n t : Nat), (blink_thread led p none env n t).map Prod.snd =
      (List.replicate n
        [ Effect.pin_toggle led, Effect.msleep (p % 4294967296 / 2),
          Effect.pin_toggle led, Effect.msleep (p % 4294967296 / 2) ]).flatten
  | 0, _ => rfl
  | n + 1, t => by
    simp only [blink_thread, List.map_append, stamp_snd, List.replicate_succ, List.flatten_cons,
      unconditional_trace led p env n]
    rfl

theorem unconditional_level (led : Line) (p h : Nat) (hh : p % 4294967296 / 2 = h)
    (env : Nat → State) (T : Nat) : ∀ (n t k : Nat) (lvl : Bool), k < 2 * n →
    t + k * h ≤ T → T < t + (k + 1) * h →
    level_at led (blink_thread led p none env n t) lvl T = (if k % 2 = 0 then !lvl else lvl)
  | 0, _, _, _, hk, _, _ => by omega
  | n + 1, t, k, lvl, hk, h1, h2 => by
    simp only [blink_thread, level_at_append, blink_iter, hh, duration, List.map_cons,
      List.map_nil, List.sum_cons, List.sum_nil, sleep_ms, stamp, Nat.add_zero, Nat.zero_add]
    match k, hk, h1, h2 with
    | 0, _, h1, h2 =>
      simp only [Nat.zero_mul, Nat.add_zero, Nat.zero_add, Nat.one_mul] at h1 h2
      have e1 : ¬ t + h ≤ T := by omega
      rw [blink_thread_skip led p none env T n _ _ (by omega)]
      simp [level_at, apply_line, h1, e1]
    | 1, _, h1, h2 =>
      simp only [Nat.one_mul] at h1
      have e2 : (1 + 1) * h = h + h := by ring
      rw [e2] at h2
      have e0 : t ≤ T := by omega
      rw [blink_thread_skip led p none env T n _ _ (by omega)]
      simp [level_at, apply_line, h1, e0]
    | k + 2, hk, h1, h2 =>
      have e1 : (k + 2) * h = k * h + (h + h) := by ring
      have e2 : (k + 2 + 1) * h = (k + 1) * h + (h + h) := by ring
      rw [e1] at h1
      rw [e2] at h2
      have e0 : t ≤ T := by omega
      have e3 : t + h ≤ T := by omega
      have ih := unconditional_level led p h hh env T n (t + (h + h)) k lvl (by omega)
        (by omega) (by omega)
      have hfirst : level_at led
          [(t, Effect.pin_toggle led), (t, Effect.msleep h), (t + h, Effect.pin_toggle led),
            (t + h, Effect.msleep h)] lvl T = lvl := by
        simp [level_at, apply_line, e0, e3]
      rw [hfirst, ih]
      have e4 : (k + 2) % 2 = k % 2 := by omega
      rw [e4]

/-- C9: the blink threads started with no flag (`th_l0`: LED0, period 2000;
`th_l1`: LED1, period 4000) take the blinking branch in every iteration,
whatever the globals are: over any number `n` of iterations the calls are `n`
times toggle, sleep `period_ms/2`, toggle, sleep `period_ms/2` (1000 ms and
2000 ms), the force-inactive write never occurs, and, with exact sleeps, the
output of the task is inverted at every multiple of `period_ms/2`. -/
theorem unconditional_blink (env : Nat → State) (n : Nat) :
    thread_entry Thread.th_l0 = some (Entry.blink Line.LED0 2000 none) ∧
    thread_entry Thread.th_l1 = some (Entry.blink Line.LED1 4000 none) ∧
    (blink_thread Line.LED0 2000 none env n 0).map Prod.snd =
      (List.replicate n
        [ Effect.pin_toggle Line.LED0, Effect.msleep 1000,
          Effect.pin_toggle Line.LED0, Effect.msleep 1000 ]).flatten ∧
    (blink_thread Line.LED1 4000 none env n 0).map Prod.snd =
      (List.replicate n
        [ Effect.pin_toggle Line.LED1, Effect.msleep 2000,
          Effect.pin_toggle Line.LED1, Effect.msleep 2000 ]).flatten ∧
    (∀ x ∈ blink_thread Line.LED0 2000 none env n 0, ∀ l v, x.2 ≠ Effect.pin_set l v) ∧
    (∀ x ∈ blink_thread Line.LED1 4000 none env n 0, ∀ l v, x.2 ≠ Effect.pin_set l v) ∧
    (∀ k T : Nat, k < 2 * n → k * 1000 ≤ T → T < (k + 1) * 1000 →
      level_at Line.LED0 (blink_thread Line.LED0 2000 none env n 0) false T =
        decide (k % 2 = 0)) ∧
    (∀ k T : Nat, k < 2 * n → k * 2000 ≤ T → T < (k + 1) * 2000 →
      level_at Line.LED1 (blink_thread Line.LED1 4000 none env n 0) false T =
        decide (k % 2 = 0)) := by
  have t0 := unconditional_trace Line.LED0 2000 env n 0
  have t1 := unconditional_trace Line.LED1 4000 env n 0
  norm_num at t0 t1
  have nomem : ∀ (led : Line) (h : Nat) (x : Nat × Effect) (tr : List (Nat × Effect)),
      tr.map Prod.snd = (List.replicate n
        [ Effect.pin_toggle led, Effect.msleep h, Effect.pin_toggle led,
          Effect.msleep h ]).flatten →
      x ∈ tr → ∀ l v, x.2 ≠ Effect.pin_set l v := by
    intro led h x tr htr hx l v hset
    have hm : x.2 ∈ tr.map Prod.snd := List.mem_map_of_mem _ hx
    rw [htr, List.mem_flatten] at hm
    obtain ⟨pat, hpat, hin⟩ := hm
    rw [List.eq_of_mem_replicate hpat, hset] at hin
    simp at hin
  refine ⟨thread_entry_l0, thread_entry_l1, t0, t1, ?_, ?_, ?_, ?_⟩
  · intro x hx
    exact nomem _ _ x _ t0 hx
  · intro x hx
    exact nomem _ _ x _ t1 hx
  · intro k T hk h1 h2
    have := unconditional_level Line.LED0 2000 1000 (by norm_num) env T n 0 k false hk
      (by omega) (by omega)
    rw [this]
    rcases Nat.mod_two_eq_zero_or_one k with h | h <;> simp [h]
  · intro k T hk h1 h2
    have := unconditional_level Line.LED1 4000 2000 (by norm_num) env T n 0 k false hk
      (by omega) (by omega)
    rw [this]
    rcases Nat.mod_two_eq_zero_or_one k with h | h <;> simp [h]

/-- C9 at a concrete run: ten periods of `th_l0` while the mode is Blue; the
output is inactive in the last half-period, 19500 ms after the start. -/
theorem unconditional_blink_witness :
    level_at Line.LED0 (blink_thread Line.LED0 2000 none redOffAfterZero 10 0) false 19500 =
        decide (19 % 2 = 0) ∧
    level_at Line.LED1 (blink_thread Line.LED1 4000 none redOffAfterZero 10 0) false 37999 =
        decide (18 % 2 = 0) :=
  ⟨(unconditional_blink redOffAfterZero 10).2.2.2.2.2.2.1 19 19500 (by decide) (by decide)
      (by decide),
    (unconditional_blink redOffAfterZero 10).2.2.2.2.2.2.2 18 37999 (by decide) (by decide)
      (by decide)⟩

theorem gated_off_aux (led : Line) (fl : Flag) (env : Nat → State) (f g T : Nat)
    (hflag : ∀ t, f ≤ t → t ≤ g → atomic_get fl (env t) = 0)
    (h1 : f + 500 ≤ T) (h2 : T ≤ g) : ∀ (n t : Nat),
    level_at led (blink_thread led 1000 (some fl) env n t) false T = false
  | 0, _ => rfl
  | n + 1, t => by
    simp only [blink_thread, level_at_append]
    have hfirst : level_at led
        (stamp t (blink_iter led (1000 % 4294967296) (some fl) (env t))) false T = false := by
      by_cases hz : atomic_get fl (env t) = 0
      · simp [blink_iter, hz, stamp, level_at, apply_line]
      · have ht : ¬ (f ≤ t ∧ t ≤ g) := fun hc => hz (hflag t hc.1 hc.2)
        by_cases hT : t ≤ T
        · have e1 : t + 500 ≤ T := by omega
          simp [blink_iter, hz, stamp, level_at, apply_line, sleep_ms, hT, e1]
        · exact stamp_skip led T _ t false (by omega)
    rw [hfirst]
    exact gated_off_aux led fl env f g T hflag h1 h2 n _

/-- C6 (amended): for a mode-gated `blink_thread` with period 1000 (as started
for LEDR and LEDB), with exact sleeps and the LED inactive when the thread
starts: if the flag is false throughout the interval from `f` to `g`, the LED
is inactive at every time from `f + 500` to `g`, that is from `period_ms / 2`
after the flip until the flag can be true again.  The bound is the half-period,
not the 50 ms poll: a thread that has just read the flag as true keeps the LED
active for its first half-period without reading the flag again. -/
theorem gated_blink_off (led : Line) (fl : Flag) (env : Nat → State) (n f g T : Nat)
    (hflag : ∀ t, f ≤ t → t ≤ g → atomic_get fl (env t) = 0)
    (h1 : f + 500 ≤ T) (h2 : T ≤ g) :
    level_at led (blink_thread led 1000 (some fl) env n 0) false T = false :=
  gated_off_aux led fl env f g T hflag h1 h2 n 0

/-- C6 (amended) at a concrete run: the Red flag true at time 0 and false from
1 ms on; LEDR is inactive at 501 ms. -/
theorem gated_blink_off_witness :
    (∀ t, 1 ≤ t → t ≤ 2000 → atomic_get Flag.red (redOffAfterZero t) = 0) ∧
    level_at Line.LEDR (blink_thread Line.LEDR 1000 (some Flag.red) redOffAfterZero 30 0)
      false 501 = false :=
  ⟨fun t ht _ => by simp [atomic_get, redOffAfterZero]; omega,
    gated_blink_off Line.LEDR Flag.red redOffAfterZero 30 1 2000 501
      (fun t ht _ => by simp [atomic_get, redOffAfterZero]; omega) (by decide) (by decide)⟩

/-- C6 as stated fails: `th_r` reads `red_enabled = 1` at time 0, toggles LEDR
active and sleeps 500 ms; the flag flips to false at 1 ms.  50 ms after the
flip (at 51 ms) LEDR is still active, and it stays active until 499 ms. -/
theorem gated_blink_off_counterexample :
    thread_entry Thread.th_r = some (Entry.blink Line.LEDR 1000 (some Flag.red)) ∧
    isTrue (atomic_get Flag.red (redOffAfterZero 0)) ∧
    (∀ t ∈ List.range 600, 1 ≤ t → ¬ isTrue (atomic_get Flag.red (redOffAfterZero t))) ∧
    level_at Line.LEDR (blink_thread Line.LEDR 1000 (some Flag.red) redOffAfterZero 30 0)
      false 51 = true ∧
    level_at Line.LEDR (blink_thread Line.LEDR 1000 (some Flag.red) redOffAfterZero 30 0)
      false 499 = true ∧
    level_at Line.LEDR (blink_thread Line.LEDR 1000 (some Flag.red) redOffAfterZero 30 0)
      false 500 = false := by
  refine ⟨by decide, by decide, ?_, by decide, by decide, by decide⟩
  intro t _ ht
  have : t ≠ 0 := by omega
  simp [isTrue, atomic_get, redOffAfterZero, this]

end Tesi
